import Mathlib

/-!
Shallow embedding of src/weatherutils.py.

The program fetches weather forecasts for named cities from an external
HTTP provider and folds them into a pandas DataFrame.  The embedding
replaces the HTTP layer by explicit response values (an `Env` record maps
a request to the response the server would have produced), replaces the
DataFrame by a list of typed records, and models Python exceptions that
escape a function by `Except`.

Modelling notes, each tied to a source line:
  - Numeric weather fields (temperature, wind speed, humidity, latitude,
    longitude) are floats in the source; no verified property computes on
    them, so they are carried as integers.  Timestamps are carried as
    naturals ordered as instants.
  - `pd.to_datetime` (line 58) lives in pandas, outside this repository;
    it is abstracted as a function `String → Option Timestamp` carried by
    `Env`, `none` modelling a raised parse error.
  - `requests.get` / `raise_for_status` / `response.json` failures all
    raise `requests.exceptions.RequestException` (JSON decode errors are a
    subclass), which the source catches (lines 29, 68); they are modelled
    as `Except.error NetErr`.  Subscripting a decoded payload that lacks a
    key raises KeyError, which the source does NOT catch; an uncaught
    Python exception is modelled as `Except.error PyErr` in the result
    type of the embedded function.
  - Geocoding result items are modelled with all four fields present
    (the shape documented for the geocoding endpoint); no claim concerns
    a malformed geocoding item.
  - `DataFrame.drop_duplicates(cols)` (line 95) keeps, for each key, the
    FIRST row in order (pandas default keep=first): embedded as
    `drop_duplicates` below.
  - `DataFrame.sort_values` on several columns (line 98) performs a
    stable lexicographic sort (numpy lexsort): embedded as a stable
    insertion sort on the lexicographic order `sortLE`.
  - The DataFrame construction at lines 57-66 builds one column per
    field; the embedding builds one record per payload item, which agrees
    on every non-raising run and raises on exactly the same runs (only
    which of several pending exceptions surfaces first can differ).
-/

/-- A UTC instant, the parse result of a dt_txt string (line 58). -/
abbrev Timestamp := Nat

/-- One row of the weather DataFrame (columns built at lines 57-66). -/
structure ForecastPoint where
  timestamp : Timestamp
  temp : Int
  weatherMain : String
  weatherDesc : String
  windSpeed : Int
  humidity : Int
  city : String
  country : String
deriving DecidableEq, Repr

/-- The weather DataFrame: an ordered collection of rows. -/
abbrev Dataset := List ForecastPoint

/-- The dedup key of line 95: the subset [Date and Time, City, Country]. -/
abbrev DupKey := Timestamp × String × String

/-- Key extraction for `drop_duplicates` (line 95). -/
def dupKey (p : ForecastPoint) : DupKey := (p.timestamp, p.city, p.country)

/-- Recursion core of `drop_duplicates`: keep a row iff its key was not
seen among earlier rows. -/
def dropDupAux (seen : List DupKey) : Dataset → Dataset
  | [] => []
  | p :: ps =>
    if dupKey p ∈ seen then dropDupAux seen ps
    else p :: dropDupAux (dupKey p :: seen) ps

/-- `db.drop_duplicates([Date and Time, City, Country])` at line 95:
pandas keeps the first row of each key (default keep=first). -/
def drop_duplicates (l : Dataset) : Dataset := dropDupAux [] l

/-- The single merge step of lines 94-95:
`db = pd.concat([db, df_updates]); db = db.drop_duplicates([...])`. -/
def mergeStep (current incoming : Dataset) : Dataset :=
  drop_duplicates (current ++ incoming)

/-- Lexicographic order on character lists: Python compares strings by
code points, shorter prefix first.  (Structural, so that the kernel can
evaluate concrete comparisons.) -/
def charListLE : List Char → List Char → Bool
  | [], _ => true
  | _ :: _, [] => false
  | a :: as, b :: bs =>
    if a < b then true
    else if b < a then false
    else charListLE as bs

/-- The sort key of line 98: columns [Date and Time, City], both
ascending, compared lexicographically. -/
def sortLE (p q : ForecastPoint) : Prop :=
  p.timestamp < q.timestamp ∨
    (p.timestamp = q.timestamp ∧ charListLE p.city.data q.city.data = true)

instance sortLE.decRel : DecidableRel sortLE := fun p q =>
  inferInstanceAs (Decidable (p.timestamp < q.timestamp ∨
    (p.timestamp = q.timestamp ∧ charListLE p.city.data q.city.data = true)))

/-- Boolean test that a row carries the sort key (t, c) of line 98. -/
def sameSortKey (t : Timestamp) (c : String) (p : ForecastPoint) : Bool :=
  decide (p.timestamp = t) && decide (p.city = c)

/-- `db.sort_values(by=[Date and Time, City], ascending=[True, True])`
at line 98.  pandas uses numpy lexsort on a multi-column sort, which is
stable; a stable insertion sort realises the same function. -/
def sort_values (l : Dataset) : Dataset := List.insertionSort sortLE l

/-- Everything the except-clauses at lines 29 and 68 catch: request
failure, non-2xx status, JSON decode failure of the body. -/
inductive NetErr
  | requestException
deriving DecidableEq, Repr

/-- An uncaught Python exception escaping a function. -/
inductive PyErr
  | keyError
  | valueError
deriving DecidableEq, Repr

/-- One element of the geocoding response array (line 24). -/
structure GeoItem where
  lat : Int
  lon : Int
  name : String
  country : String
deriving DecidableEq, Repr

/-- `geocoding_weather_location` (lines 6-31), as a function of the
geocoding response for the requested city.  A transport error is caught
and yields None (lines 29-31); an empty result array yields None
(lines 26-28); otherwise the first element is taken (lines 23-25). -/
def geocoding_weather_location :
    Except NetErr (List GeoItem) → Option (Int × Int × String × String)
  | .error _ => none
  | .ok [] => none
  | .ok (item :: _) => some (item.lat, item.lon, item.name, item.country)

/-- One element of the forecast payload list.  Each field is `Option`
because subscripting a missing key raises KeyError: `dt_txt` models
item[dt_txt], `mainTemp` models item[main][temp], `weatherMain` and
`weatherDescription` model item[weather][0][...], `windSpeed` models
item[wind][speed], `mainHumidity` models item[main][humidity]
(lines 58-63). -/
structure RawItem where
  dt_txt : Option String
  mainTemp : Option Int
  weatherMain : Option String
  weatherDescription : Option String
  windSpeed : Option Int
  mainHumidity : Option Int
deriving DecidableEq, Repr

/-- The decoded forecast payload; `list` is `data[list]` (line 56),
`none` when the key is absent. -/
structure RawForecast where
  list : Option (List RawItem)
deriving DecidableEq, Repr

/-- Subscripting a decoded JSON object: a missing key raises KeyError,
which nothing in `fetch_weather_data` catches. -/
def getKey {α : Type} : Option α → Except PyErr α
  | none => .error .keyError
  | some a => .ok a

/-- Build the row of one payload item (lines 58-66): parse dt_txt
(a failed parse raises, modelled `valueError`), read the numeric and
weather fields (a missing one raises KeyError), and stamp the row with
the city and country passed by the caller (lines 64-65). -/
def toPoint (dtParse : String → Option Timestamp) (city country : String)
    (it : RawItem) : Except PyErr ForecastPoint := do
  let s ← getKey it.dt_txt
  let ts ← match dtParse s with
    | none => Except.error PyErr.valueError
    | some ts => Except.ok ts
  let t ← getKey it.mainTemp
  let w ← getKey it.weatherMain
  let d ← getKey it.weatherDescription
  let ws ← getKey it.windSpeed
  let h ← getKey it.mainHumidity
  Except.ok ⟨ts, t, w, d, ws, h, city, country⟩

/-- `fetch_weather_data` (lines 34-70), as a function of the forecast
response for the requested coordinates.  A transport-level failure is
caught and yields None (`Except.ok none`, lines 68-70).  After that the
try-block no longer catches anything that is raised: a payload without
the list key raises KeyError (line 56), and any failing item raises out
of the DataFrame construction (lines 57-66). -/
def fetch_weather_data (dtParse : String → Option Timestamp)
    (resp : Except NetErr RawForecast) (city country : String) :
    Except PyErr (Option (List ForecastPoint)) :=
  match resp with
  | .error _ => .ok none
  | .ok data =>
    match data.list with
    | none => .error .keyError
    | some items => (items.mapM (toPoint dtParse city country)).map some

/-- The outside world of one batch run: the parser provided by pandas
and, for each request the program can make, the response the provider
would return.  The api key and units only select the request URL and are
absorbed into the response functions. -/
structure Env where
  dtParse : String → Option Timestamp
  geoResp : String → Except NetErr (List GeoItem)
  fcResp : Int → Int → Except NetErr RawForecast

/-- The per-city loop of `update_weather_db` (lines 88-95).  A failed
geocoding is skipped (line 90 guard), a fetch returning None is skipped
(line 93 guard), a successful fetch is folded in by concat plus
drop_duplicates (lines 94-95), and an uncaught exception from the fetch
aborts the whole loop. -/
def updateLoop (env : Env) : List String → Dataset → Except PyErr Dataset
  | [], db => .ok db
  | city_name :: rest, db =>
    match geocoding_weather_location (env.geoResp city_name) with
    | none => updateLoop env rest db
    | some (lat, lon, city, country) =>
      match fetch_weather_data env.dtParse (env.fcResp lat lon) city country with
      | .error e => .error e
      | .ok none => updateLoop env rest db
      | .ok (some pts) => updateLoop env rest (drop_duplicates (db ++ pts))

/-- `update_weather_db` (lines 73-103): default the absent database to an
empty one (lines 85-86), run the per-city loop, and sort a non-empty
result by [Date and Time, City] (lines 97-98).  The print at line 101 is
a side effect with no return-value impact and is not modelled. -/
def update_weather_db (env : Env) (city_names : List String)
    (db? : Option Dataset) : Except PyErr Dataset :=
  let db0 := db?.getD []
  (updateLoop env city_names db0).map fun db =>
    if db.isEmpty then db else sort_values db

/-! Concrete fixtures used by witnesses and counterexamples. -/

/-- A city name used in concrete runs. -/
def cityX : String := "X"

/-- The canonical city name returned by the geocoding fixture. -/
def cityA : String := "a"

/-- The country code returned by the geocoding fixture. -/
def countryAA : String := "AA"

/-- A raw dt_txt string. -/
def dtRaw : String := "t"

/-- A weather category string. -/
def wMain : String := "w"

/-- A weather description string. -/
def wDesc : String := "d"

/-- An environment in which every network call fails. -/
def envFail : Env where
  dtParse := fun _ => none
  geoResp := fun _ => Except.error NetErr.requestException
  fcResp := fun _ _ => Except.error NetErr.requestException

/-- A stored row at key (5, a, AA) with temperature 10. -/
def pOld : ForecastPoint :=
  ⟨5, 10, wMain, wDesc, 1, 50, cityA, countryAA⟩

/-- An incoming row at the same key (5, a, AA) with temperature 20. -/
def pNew : ForecastPoint :=
  ⟨5, 20, wMain, wDesc, 1, 50, cityA, countryAA⟩

/-- A row at a later key (7, a, AA). -/
def pLater : ForecastPoint :=
  ⟨7, 15, wMain, wDesc, 2, 60, cityA, countryAA⟩

/-- The payload item that `toPoint` maps to `pNew` under the fixture
parser (dt parses to 5). -/
def itemNew : RawItem :=
  ⟨some dtRaw, some 20, some wMain, some wDesc, some 1, some 50⟩

/-- An environment in which geocoding resolves `cityX` and the fetch
delivers exactly `[pNew]`. -/
def envInc : Env where
  dtParse := fun _ => some 5
  geoResp := fun _ => Except.ok [⟨0, 0, cityA, countryAA⟩]
  fcResp := fun _ _ => Except.ok ⟨some [itemNew]⟩

/-- An environment in which geocoding succeeds but the forecast payload
lacks the list key, so the fetch raises. -/
def envBadPayload : Env where
  dtParse := fun _ => none
  geoResp := fun _ => Except.ok [⟨0, 0, cityA, countryAA⟩]
  fcResp := fun _ _ => Except.ok ⟨none⟩

/-- An environment in which geocoding succeeds and the payload is well
shaped, but the dt_txt string does not parse, so the fetch raises. -/
def envBadDt : Env where
  dtParse := fun _ => none
  geoResp := fun _ => Except.ok [⟨0, 0, cityA, countryAA⟩]
  fcResp := fun _ _ => Except.ok ⟨some [itemNew]⟩

/-! Order facts about the embedded sort comparison. -/

theorem charListLE_refl (as : List Char) : charListLE as as = true := by
  induction as with
  | nil => rfl
  | cons a as ih => simp [charListLE, lt_self_iff_false, ih]

theorem charListLE_total (as bs : List Char) :
    charListLE as bs = true ∨ charListLE bs as = true := by
  induction as generalizing bs with
  | nil => left; rfl
  | cons a as ih =>
    cases bs with
    | nil => right; rfl
    | cons b bs =>
      rcases lt_trichotomy a b with h | h | h
      · left; simp [charListLE, h]
      · subst h
        rcases ih bs with h2 | h2
        · left; simp [charListLE, lt_self_iff_false, h2]
        · right; simp [charListLE, lt_self_iff_false, h2]
      · right; simp [charListLE, h]

theorem charListLE_trans (as bs cs : List Char) (h1 : charListLE as bs = true)
    (h2 : charListLE bs cs = true) : charListLE as cs = true := by
  induction as generalizing bs cs with
  | nil => rfl
  | cons a as ih =>
    cases bs with
    | nil => simp [charListLE] at h1
    | cons b bs =>
      cases cs with
      | nil => simp [charListLE] at h2
      | cons c cs =>
        by_cases hab : a < b
        · by_cases hbc : b < c
          · simp [charListLE, lt_trans hab hbc]
          · by_cases hcb : c < b
            · simp [charListLE, hbc, hcb] at h2
            · have hbc2 : b = c := le_antisymm (not_lt.mp hcb) (not_lt.mp hbc)
              subst hbc2
              simp [charListLE, hab]
        · by_cases hba : b < a
          · simp [charListLE, hab, hba] at h1
          · have hab2 : a = b := le_antisymm (not_lt.mp hba) (not_lt.mp hab)
            subst hab2
            simp only [charListLE, lt_self_iff_false, if_false] at h1
            by_cases hac : a < c
            · simp [charListLE, hac]
            · by_cases hca : c < a
              · simp [charListLE, hac, hca] at h2
              · have hac2 : a = c := le_antisymm (not_lt.mp hca) (not_lt.mp hac)
                subst hac2
                simp only [charListLE, lt_self_iff_false, if_false] at h2 ⊢
                exact ih bs cs h1 h2

instance sortLE.total : IsTotal ForecastPoint sortLE where
  total p q := by
    rcases lt_trichotomy p.timestamp q.timestamp with h | h | h
    · exact Or.inl (Or.inl h)
    · rcases charListLE_total p.city.data q.city.data with h2 | h2
      · exact Or.inl (Or.inr ⟨h, h2⟩)
      · exact Or.inr (Or.inr ⟨h.symm, h2⟩)
    · exact Or.inr (Or.inl h)

instance sortLE.trans : IsTrans ForecastPoint sortLE where
  trans p q r h1 h2 := by
    rcases h1 with h1 | ⟨e1, c1⟩
    · rcases h2 with h2 | ⟨e2, c2⟩
      · exact Or.inl (lt_trans h1 h2)
      · exact Or.inl (e2 ▸ h1)
    · rcases h2 with h2 | ⟨e2, c2⟩
      · exact Or.inl (e1 ▸ h2)
      · exact Or.inr ⟨e1.trans e2, charListLE_trans _ _ _ c1 c2⟩

theorem sortLE_of_sameSortKey {t : Timestamp} {c : String} {p q : ForecastPoint}
    (hp : sameSortKey t c p = true) (hq : sameSortKey t c q = true) : sortLE p q := by
  simp only [sameSortKey, Bool.and_eq_true, decide_eq_true_eq] at hp hq
  refine Or.inr ⟨hp.1.trans hq.1.symm, ?_⟩
  rw [hp.2, hq.2]
  exact charListLE_refl _

/-! Behaviour of the keep-first deduplication. -/

theorem mem_of_mem_dropDupAux (seen : List DupKey) (l : Dataset) (p : ForecastPoint)
    (h : p ∈ dropDupAux seen l) : p ∈ l := by
  induction l generalizing seen with
  | nil => simp [dropDupAux] at h
  | cons a l ih =>
    simp only [dropDupAux] at h
    split at h
    · exact List.mem_cons_of_mem _ (ih _ h)
    · rcases List.mem_cons.mp h with h | h
      · exact h ▸ List.mem_cons_self _ _
      · exact List.mem_cons_of_mem _ (ih _ h)

theorem mem_dropDupAux_iff (seen : List DupKey) (l : Dataset) (p : ForecastPoint) :
    p ∈ dropDupAux seen l ↔
      dupKey p ∉ seen ∧ l.find? (fun q => decide (dupKey q = dupKey p)) = some p := by
  induction l generalizing seen with
  | nil => simp [dropDupAux]
  | cons a l ih =>
    by_cases hk : dupKey a = dupKey p
    · rw [List.find?_cons_of_pos _ (by simp [hk])]
      by_cases hs : dupKey a ∈ seen
      · simp only [dropDupAux, if_pos hs]
        rw [ih]
        constructor
        · rintro ⟨hns, -⟩; exact absurd (hk ▸ hs) hns
        · rintro ⟨hns, -⟩; exact absurd (hk ▸ hs) hns
      · simp only [dropDupAux, if_neg hs]
        constructor
        · intro h
          rcases List.mem_cons.mp h with h | h
          · subst h
            exact ⟨hs, rfl⟩
          · have h2 := (ih _).mp h
            exact absurd (hk ▸ List.mem_cons_self _ _) h2.1
        · rintro ⟨hns, ha⟩
          have : a = p := Option.some.inj ha
          subst this
          exact List.mem_cons_self _ _
    · rw [List.find?_cons_of_neg _ (by simp [hk])]
      by_cases hs : dupKey a ∈ seen
      · simp only [dropDupAux, if_pos hs]
        exact ih seen
      · simp only [dropDupAux, if_neg hs, List.mem_cons]
        constructor
        · rintro (h | h)
          · exact absurd (h ▸ rfl) (Ne.symm hk)
          · have h2 := (ih _).mp h
            exact ⟨fun hc => h2.1 (List.mem_cons_of_mem _ hc), h2.2⟩
        · rintro ⟨hns, hf⟩
          refine Or.inr ((ih _).mpr ⟨?_, hf⟩)
          intro hc
          rcases List.mem_cons.mp hc with hc | hc
          · exact hk hc.symm
          · exact hns hc

theorem dropDupAux_keys_nodup (l : Dataset) : ∀ seen : List DupKey,
    ((dropDupAux seen l).map dupKey).Nodup ∧
      ∀ k ∈ (dropDupAux seen l).map dupKey, k ∉ seen := by
  induction l with
  | nil => intro seen; simp [dropDupAux]
  | cons a l ih =>
    intro seen
    by_cases hs : dupKey a ∈ seen
    · simp only [dropDupAux, if_pos hs]
      exact ih seen
    · simp only [dropDupAux, if_neg hs, List.map_cons, List.nodup_cons]
      obtain ⟨h1, h2⟩ := ih (dupKey a :: seen)
      refine ⟨⟨fun hmem => (h2 _ hmem) (List.mem_cons_self _ _), h1⟩, ?_⟩
      intro k hk
      rcases List.mem_cons.mp hk with hk | hk
      · exact hk ▸ hs
      · exact fun hc => (h2 _ hk) (List.mem_cons_of_mem _ hc)

theorem dropDupAux_keys_cover (l : Dataset) : ∀ (seen : List DupKey) (k : DupKey),
    k ∈ l.map dupKey → k ∉ seen → k ∈ (dropDupAux seen l).map dupKey := by
  induction l with
  | nil => intro seen k hk _; simp at hk
  | cons a l ih =>
    intro seen k hk hs
    rw [List.map_cons] at hk
    by_cases hsa : dupKey a ∈ seen
    · simp only [dropDupAux, if_pos hsa]
      rcases List.mem_cons.mp hk with h | h
      · exact absurd (h ▸ hsa) hs
      · exact ih seen k h hs
    · simp only [dropDupAux, if_neg hsa, List.map_cons, List.mem_cons]
      by_cases hka : k = dupKey a
      · exact Or.inl hka
      · rcases List.mem_cons.mp hk with h | h
        · exact absurd h hka
        · refine Or.inr (ih _ k h ?_)
          intro hc
          rcases List.mem_cons.mp hc with hc | hc
          · exact hka hc
          · exact hs hc

theorem dropDupAux_all_seen (l : Dataset) : ∀ seen : List DupKey,
    (∀ k ∈ l.map dupKey, k ∈ seen) → dropDupAux seen l = [] := by
  induction l with
  | nil => intro seen _; rfl
  | cons a l ih =>
    intro seen hall
    have hsa : dupKey a ∈ seen := hall _ (by simp)
    simp only [dropDupAux, if_pos hsa]
    exact ih seen fun k hk => hall k (by simp [hk])

theorem dropDupAux_append_absorb (l : Dataset) :
    ∀ (seen : List DupKey) (l2 : Dataset),
      (l.map dupKey).Nodup → (∀ k ∈ l.map dupKey, k ∉ seen) →
      (∀ k ∈ l2.map dupKey, k ∈ l.map dupKey ∨ k ∈ seen) →
      dropDupAux seen (l ++ l2) = l := by
  induction l with
  | nil =>
    intro seen l2 _ _ hcov
    exact dropDupAux_all_seen l2 seen fun k hk => (hcov k hk).resolve_left (by simp)
  | cons a l ih =>
    intro seen l2 hnd hfresh hcov
    have hsa : dupKey a ∉ seen := hfresh _ (by simp)
    simp only [List.map_cons, List.nodup_cons] at hnd
    simp only [List.cons_append, dropDupAux, if_neg hsa]
    congr 1
    apply ih (dupKey a :: seen) l2 hnd.2
    · intro k hk hc
      rcases List.mem_cons.mp hc with hc | hc
      · exact hnd.1 (hc ▸ hk)
      · exact hfresh k (by simp [hk]) hc
    · intro k hk
      rcases hcov k hk with h | h
      · rw [List.map_cons] at h
        rcases List.mem_cons.mp h with h2 | h2
        · exact Or.inr (by simp [h2])
        · exact Or.inl h2
      · exact Or.inr (List.mem_cons_of_mem _ h)

theorem dupKey_inj_of_nodup (l : Dataset) (h : (l.map dupKey).Nodup)
    (p q : ForecastPoint) (hp : p ∈ l) (hq : q ∈ l) (hk : dupKey p = dupKey q) :
    p = q := by
  induction l with
  | nil => simp at hp
  | cons a l ih =>
    simp only [List.map_cons, List.nodup_cons] at h
    rcases List.mem_cons.mp hp with hp1 | hp1 <;> rcases List.mem_cons.mp hq with hq1 | hq1
    · exact hp1.trans hq1.symm
    · exfalso
      apply h.1
      rw [← hp1, hk]
      exact List.mem_map_of_mem dupKey hq1
    · exfalso
      apply h.1
      rw [← hq1, ← hk]
      exact List.mem_map_of_mem dupKey hp1
    · exact ih h.2 hp1 hq1

/-! Merge-level consequences. -/

theorem drop_duplicates_keys_nodup (l : Dataset) :
    ((drop_duplicates l).map dupKey).Nodup :=
  (dropDupAux_keys_nodup l []).1

theorem mem_drop_duplicates_iff (l : Dataset) (p : ForecastPoint) :
    p ∈ drop_duplicates l ↔
      l.find? (fun q => decide (dupKey q = dupKey p)) = some p := by
  rw [drop_duplicates, mem_dropDupAux_iff]
  simp

theorem drop_duplicates_keys_cover (l : Dataset) (k : DupKey)
    (h : k ∈ l.map dupKey) : k ∈ (drop_duplicates l).map dupKey :=
  dropDupAux_keys_cover l [] k h (by simp)

theorem drop_duplicates_absorb (l l2 : Dataset)
    (hnd : (l.map dupKey).Nodup)
    (hcov : ∀ k ∈ l2.map dupKey, k ∈ l.map dupKey) :
    drop_duplicates (l ++ l2) = l :=
  dropDupAux_append_absorb l [] l2 hnd (by simp) fun k hk => Or.inl (hcov k hk)

theorem find?_eq_some_of_unique (cur : Dataset) (p : ForecastPoint)
    (hp : p ∈ cur) (huniq : ∀ q ∈ cur, dupKey q = dupKey p → q = p) :
    cur.find? (fun q => decide (dupKey q = dupKey p)) = some p := by
  induction cur with
  | nil => simp at hp
  | cons a l ih =>
    by_cases hk : dupKey a = dupKey p
    · have ha : a = p := huniq a (List.mem_cons_self _ _) hk
      rw [List.find?_cons_of_pos _ (by simp [hk]), ha]
    · rw [List.find?_cons_of_neg _ (by simp [hk])]
      rcases List.mem_cons.mp hp with h | h
      · exact absurd (by rw [h]) hk
      · exact ih h fun q hq hkq => huniq q (List.mem_cons_of_mem _ hq) hkq

theorem mergeStep_keeps_unique_current (cur inc : Dataset) (p : ForecastPoint)
    (hp : p ∈ cur) (huniq : ∀ q ∈ cur, dupKey q = dupKey p → q = p) :
    p ∈ mergeStep cur inc ∧
      ∀ q ∈ mergeStep cur inc, dupKey q = dupKey p → q = p := by
  have hfind : (cur ++ inc).find? (fun q => decide (dupKey q = dupKey p)) = some p := by
    rw [List.find?_append, find?_eq_some_of_unique cur p hp huniq]
    rfl
  constructor
  · exact (mem_drop_duplicates_iff _ _).mpr hfind
  · intro q hq hkq
    have h2 := (mem_drop_duplicates_iff _ _).mp hq
    rw [hkq] at h2
    exact Option.some.inj (h2.symm.trans hfind)

/-! The per-city loop preserves key uniqueness and stored rows. -/

theorem updateLoop_ok (env : Env) : ∀ (cities : List String) (db d : Dataset),
    (db.map dupKey).Nodup → updateLoop env cities db = Except.ok d →
    (d.map dupKey).Nodup ∧ ∀ p ∈ db, p ∈ d := by
  intro cities
  induction cities with
  | nil =>
    intro db d hnd h
    simp only [updateLoop] at h
    cases Except.ok.inj h
    exact ⟨hnd, fun p hp => hp⟩
  | cons c rest ih =>
    intro db d hnd h
    simp only [updateLoop] at h
    split at h
    · exact ih db d hnd h
    · split at h
      · exact Except.noConfusion h
      · exact ih db d hnd h
      · obtain ⟨hd1, hd2⟩ := ih _ d (drop_duplicates_keys_nodup _) h
        refine ⟨hd1, fun p hp => hd2 p ?_⟩
        have huniq : ∀ q ∈ db, dupKey q = dupKey p → q = p :=
          fun q hq hk => dupKey_inj_of_nodup db hnd q p hq hp hk
        exact (mergeStep_keeps_unique_current db _ p hp huniq).1

/-! Stability of the final sort. -/

theorem filter_orderedInsert (t : Timestamp) (c : String) (a : ForecastPoint)
    (s : Dataset) :
    (List.orderedInsert sortLE a s).filter (sameSortKey t c) =
      if sameSortKey t c a = true then a :: s.filter (sameSortKey t c)
      else s.filter (sameSortKey t c) := by
  induction s with
  | nil => simp [List.filter_cons]
  | cons b s ih =>
    by_cases hab : sortLE a b
    · simp only [List.orderedInsert, if_pos hab]
      rw [List.filter_cons]
    · simp only [List.orderedInsert, if_neg hab, List.filter_cons]
      by_cases hb : sameSortKey t c b = true
      · have ha : ¬ sameSortKey t c a = true := by
          intro ha
          exact hab (sortLE_of_sameSortKey ha hb)
        rw [if_pos hb, ih, if_neg ha]
        simp [ha, hb]
      · rw [if_neg hb, ih]
        simp [hb]

theorem sort_values_filter_sameSortKey (l : Dataset) (t : Timestamp) (c : String) :
    (sort_values l).filter (sameSortKey t c) = l.filter (sameSortKey t c) := by
  induction l with
  | nil => rfl
  | cons a l ih =>
    simp only [sort_values] at ih ⊢
    simp only [List.insertionSort]
    rw [filter_orderedInsert, ih, List.filter_cons]

theorem filter_key_eq_singleton (l : Dataset) (p : ForecastPoint)
    (hnd : (l.map dupKey).Nodup) (hp : p ∈ l) :
    l.filter (fun q => decide (dupKey q = dupKey p)) = [p] := by
  induction l with
  | nil => simp at hp
  | cons a l ih =>
    simp only [List.map_cons, List.nodup_cons] at hnd
    rcases List.mem_cons.mp hp with h | h
    · subst h
      rw [List.filter_cons, if_pos (by simp)]
      have : l.filter (fun q => decide (dupKey q = dupKey p)) = [] := by
        refine List.filter_eq_nil_iff.mpr fun q hq hdq => ?_
        apply hnd.1
        rw [← decide_eq_true_eq (p := dupKey q = dupKey p) |>.mp hdq]
        exact List.mem_map_of_mem dupKey hq
      rw [this]
    · rw [List.filter_cons]
      by_cases hk : dupKey a = dupKey p
      · exfalso
        apply hnd.1
        rw [hk]
        exact List.mem_map_of_mem dupKey h
      · rw [if_neg (by simp [hk])]
        exact ih hnd.2 h

theorem updateLoop_all_failed (env : Env) : ∀ (cities : List String) (db : Dataset),
    (∀ c ∈ cities, geocoding_weather_location (env.geoResp c) = none) →
    updateLoop env cities db = Except.ok db := by
  intro cities
  induction cities with
  | nil => intro db _; rfl
  | cons c rest ih =>
    intro db hall
    have h1 := hall c (List.mem_cons_self _ _)
    simp only [updateLoop, h1]
    exact ih db fun x hx => hall x (List.mem_cons_of_mem _ hx)

theorem isEmpty_branch_eq_sort (db : Dataset) :
    (if db.isEmpty then db else sort_values db) = sort_values db := by
  cases db with
  | nil => rfl
  | cons a l => rfl

/-! Claim theorems. -/

/-- C1 (corrected): the deduplication of lines 94-95 keeps, for each
duplicated (timestamp, city, country) key, the CURRENT (earlier) record,
not the incoming one — pandas drop_duplicates defaults to keep=first and
the current rows precede the incoming rows in the concatenation.  If p is
the unique record of its key in the current dataset, then after merging
any incoming batch the records at that key are exactly [p]. -/
theorem mergeStep_first_write_wins (cur inc : Dataset) (p : ForecastPoint)
    (hp : p ∈ cur) (huniq : ∀ q ∈ cur, dupKey q = dupKey p → q = p) :
    (mergeStep cur inc).filter (fun q => decide (dupKey q = dupKey p)) = [p] :=
  filter_key_eq_singleton _ p (drop_duplicates_keys_nodup _)
    (mergeStep_keeps_unique_current cur inc p hp huniq).1

/-- Witness for C1 at a concrete merge: current [pOld], incoming [pNew]
with the same key. -/
theorem mergeStep_first_write_wins_witness :
    (mergeStep [pOld] [pNew]).filter (fun q => decide (dupKey q = dupKey pOld)) =
      [pOld] :=
  mergeStep_first_write_wins [pOld] [pNew] pOld (by decide) (by decide)

/-- Counterexample to C1 as stated: with current dataset [pOld] and an
incoming fetched point pNew at the same (timestamp, city, country) key
but a different temperature, the run returns the stored point pOld with
its OLD temperature — not the incoming temperature. -/
theorem update_last_write_wins_counterexample :
    update_weather_db envInc [cityX] (some [pOld]) = Except.ok [pOld] ∧
      fetch_weather_data envInc.dtParse (envInc.fcResp 0 0) cityA countryAA =
        Except.ok (some [pNew]) ∧
      dupKey pOld = dupKey pNew ∧ pOld.temp ≠ pNew.temp :=
  ⟨rfl, rfl, by decide, by decide⟩

/-- C2 (corrected): the returned dataset has pairwise distinct
(timestamp, city, country) keys PROVIDED the input dataset already
satisfies that invariant; when every location fails, the input is only
re-sorted, never re-deduplicated, so duplicate keys in the input
survive. -/
theorem update_weather_db_unique_keys (env : Env) (cities : List String)
    (db? : Option Dataset) (d : Dataset)
    (hnd : ((db?.getD []).map dupKey).Nodup)
    (h : update_weather_db env cities db? = Except.ok d) :
    ∀ p ∈ d, ∀ q ∈ d, p ≠ q → dupKey p ≠ dupKey q := by
  simp only [update_weather_db] at h
  cases hl : updateLoop env cities (db?.getD []) with
  | error e => rw [hl] at h; exact Except.noConfusion h
  | ok db =>
    rw [hl] at h
    simp only [Except.map] at h
    have hd : (if db.isEmpty then db else sort_values db) = d := Except.ok.inj h
    rw [isEmpty_branch_eq_sort] at hd
    obtain ⟨hdb, -⟩ := updateLoop_ok env cities (db?.getD []) db hnd hl
    have hperm : (sort_values db).Perm db := List.perm_insertionSort sortLE db
    have hnd2 : ((sort_values db).map dupKey).Nodup :=
      ((hperm.map dupKey).nodup_iff).mpr hdb
    rw [hd] at hnd2
    intro p hp q hq hne heq
    exact hne (dupKey_inj_of_nodup d hnd2 p q hp hq heq)

/-- Witness for C2 on a run with a unique-key input. -/
theorem update_weather_db_unique_keys_witness :
    dupKey pOld ≠ dupKey pLater :=
  update_weather_db_unique_keys envFail [cityX] (some [pOld, pLater])
    [pOld, pLater] (by decide) rfl pOld (by decide) pLater (by decide) (by decide)

/-- Counterexample to C2 as stated: if the input dataset already holds
two distinct points at one key and every location fails (so no dedup step
ever runs), the returned dataset still holds both. -/
theorem update_unique_keys_counterexample :
    update_weather_db envFail [cityX] (some [pOld, pNew]) =
      Except.ok [pOld, pNew] ∧
      pOld ≠ pNew ∧ dupKey pOld = dupKey pNew :=
  ⟨rfl, by decide, by decide⟩

/-- C3: every dataset returned by update_weather_db is sorted ascending
by (timestamp, city): adjacent pairs are ordered by sortLE.  The empty
dataset skips the sort at line 97 but is trivially sorted. -/
theorem update_weather_db_sorted (env : Env) (cities : List String)
    (db? : Option Dataset) (d : Dataset)
    (h : update_weather_db env cities db? = Except.ok d) :
    d.Chain' sortLE := by
  simp only [update_weather_db] at h
  cases hl : updateLoop env cities (db?.getD []) with
  | error e => rw [hl] at h; exact Except.noConfusion h
  | ok db =>
    rw [hl] at h
    simp only [Except.map] at h
    have hd : (if db.isEmpty then db else sort_values db) = d := Except.ok.inj h
    rw [isEmpty_branch_eq_sort] at hd
    rw [← hd]
    exact List.Pairwise.chain' (List.sorted_insertionSort sortLE db)

/-- Witness for C3 on a run whose input is out of order. -/
theorem update_weather_db_sorted_witness :
    List.Chain' sortLE [pOld, pLater] :=
  update_weather_db_sorted envFail [cityX] (some [pLater, pOld]) [pOld, pLater] rfl

/-- C4 (corrected): only transport-level failures — the ones raising
requests.exceptions.RequestException — are caught and turned into None
(FetchFailed).  A parse failure of a successfully decoded payload
(missing list key, missing item fields, malformed dt_txt) raises an
uncaught exception, and that exception propagates out of
update_weather_db, terminating the whole batch. -/
theorem fetch_failure_modes (dtP : String → Option Timestamp)
    (e : NetErr) (city country : String) (env : Env) (c : String)
    (rest : List String) (db? : Option Dataset)
    (lat lon : Int) (rcity rcountry : String) (pe : PyErr)
    (hg : geocoding_weather_location (env.geoResp c) =
      some (lat, lon, rcity, rcountry))
    (hf : fetch_weather_data env.dtParse (env.fcResp lat lon) rcity rcountry =
      Except.error pe) :
    fetch_weather_data dtP (Except.error e) city country = Except.ok none ∧
      fetch_weather_data dtP (Except.ok ⟨none⟩) city country =
        Except.error PyErr.keyError ∧
      update_weather_db env (c :: rest) db? = Except.error pe := by
  refine ⟨rfl, rfl, ?_⟩
  simp only [update_weather_db, updateLoop, hg, hf, Except.map]

/-- Witness for C4 at concrete responses. -/
theorem fetch_failure_modes_witness :
    fetch_weather_data envFail.dtParse (Except.error NetErr.requestException)
        cityA countryAA = Except.ok none ∧
      fetch_weather_data envFail.dtParse (Except.ok ⟨none⟩) cityA countryAA =
        Except.error PyErr.keyError ∧
      update_weather_db envBadPayload [cityX] none = Except.error PyErr.keyError :=
  fetch_failure_modes envFail.dtParse NetErr.requestException cityA countryAA
    envBadPayload cityX [] none 0 0 cityA countryAA PyErr.keyError rfl rfl

/-- Counterexample to C4 as stated: a payload missing the list key and a
payload whose dt_txt does not parse both RAISE (they do not return None),
and the exception escapes update_weather_db. -/
theorem fetch_parse_failure_raises :
    fetch_weather_data envBadPayload.dtParse (Except.ok ⟨none⟩) cityA countryAA =
      Except.error PyErr.keyError ∧
      fetch_weather_data envBadDt.dtParse (envBadDt.fcResp 0 0) cityA countryAA =
        Except.error PyErr.valueError ∧
      update_weather_db envBadPayload [cityX] none = Except.error PyErr.keyError ∧
      update_weather_db envBadDt [cityX] none = Except.error PyErr.valueError ∧
      (Except.error PyErr.keyError ≠
        (Except.ok none : Except PyErr (Option (List ForecastPoint)))) :=
  ⟨rfl, rfl, rfl, rfl, fun h => Except.noConfusion h⟩

/-- C5: a location whose geocoding yields None is skipped — no fetch, no
merge, and the rest of the batch proceeds on the unchanged dataset; when
every location fails the run returns the input dataset re-sorted, a
permutation of the input. -/
theorem update_skips_failed_resolutions (env : Env) (c : String)
    (rest : List String) (db : Dataset) (cities : List String)
    (db? : Option Dataset)
    (hc : geocoding_weather_location (env.geoResp c) = none)
    (hall : ∀ x ∈ cities, geocoding_weather_location (env.geoResp x) = none) :
    updateLoop env (c :: rest) db = updateLoop env rest db ∧
      update_weather_db env cities db? = Except.ok (sort_values (db?.getD [])) ∧
      (sort_values (db?.getD [])).Perm (db?.getD []) := by
  refine ⟨?_, ?_, List.perm_insertionSort sortLE _⟩
  · simp only [updateLoop, hc]
  · simp only [update_weather_db, updateLoop_all_failed env cities _ hall,
      Except.map]
    rw [isEmpty_branch_eq_sort]

/-- Witness for C5: one failing location, concrete dataset. -/
theorem update_skips_failed_resolutions_witness :
    updateLoop envFail [cityX] [pOld] = updateLoop envFail [] [pOld] ∧
      update_weather_db envFail [cityX] (some [pLater, pOld]) =
        Except.ok (sort_values [pLater, pOld]) ∧
      (sort_values [pLater, pOld]).Perm [pLater, pOld] :=
  update_skips_failed_resolutions envFail cityX [] [pOld] [cityX]
    (some [pLater, pOld]) rfl fun _ _ => rfl

/-- C6: the final sort of line 98 is stable — for every (timestamp, city)
sort key, the subsequence of rows carrying that key is exactly the
subsequence they formed before the sort, in the same relative order. -/
theorem sort_values_stable_on_ties (l : Dataset) (t : Timestamp) (c : String) :
    (sort_values l).filter (sameSortKey t c) = l.filter (sameSortKey t c) :=
  sort_values_filter_sameSortKey l t c

/-- C7: folding the same incoming batch in twice changes nothing beyond
the first merge: every incoming key is already present after the first
concat-dedup step, and keep-first dedup of an already unique dataset is
the identity. -/
theorem mergeStep_idempotent (cur inc : Dataset) :
    mergeStep (mergeStep cur inc) inc = mergeStep cur inc := by
  show drop_duplicates (mergeStep cur inc ++ inc) = mergeStep cur inc
  apply drop_duplicates_absorb
  · exact drop_duplicates_keys_nodup _
  · intro k hk
    apply drop_duplicates_keys_cover
    rw [List.map_append]
    exact List.mem_append_right _ hk

/-- C9: whenever the geocoding response decodes to a non-empty result
array, the function returns the latitude, longitude, name and country of
the FIRST element, whatever the remaining elements are. -/
theorem geocoding_takes_first_result (item : GeoItem) (rest : List GeoItem) :
    geocoding_weather_location (Except.ok (item :: rest)) =
      some (item.lat, item.lon, item.name, item.country) := rfl

/-- C10 (corrected): provided the input dataset satisfies the uniqueness
invariant on (timestamp, city, country), every row of it — with all its
field values — is still present in the returned dataset: keep-first
deduplication never replaces a stored row by an incoming one.  Without
that proviso, a later duplicate-key row of the input itself is dropped by
the first merge. -/
theorem update_weather_db_preserves_rows (env : Env) (cities : List String)
    (db? : Option Dataset) (d : Dataset) (p : ForecastPoint)
    (hnd : ((db?.getD []).map dupKey).Nodup)
    (hp : p ∈ db?.getD [])
    (h : update_weather_db env cities db? = Except.ok d) :
    p ∈ d := by
  simp only [update_weather_db] at h
  cases hl : updateLoop env cities (db?.getD []) with
  | error e => rw [hl] at h; exact Except.noConfusion h
  | ok db =>
    rw [hl] at h
    simp only [Except.map] at h
    have hd : (if db.isEmpty then db else sort_values db) = d := Except.ok.inj h
    rw [isEmpty_branch_eq_sort] at hd
    obtain ⟨-, hsub⟩ := updateLoop_ok env cities (db?.getD []) db hnd hl
    rw [← hd]
    exact (List.mem_insertionSort sortLE).mpr (hsub p hp)

/-- Witness for C10 on a run that really merges an incoming batch. -/
theorem update_weather_db_preserves_rows_witness :
    pLater ∈ [pNew, pLater] :=
  update_weather_db_preserves_rows envInc [cityX] (some [pLater]) [pNew, pLater]
    pLater (by decide) (by decide) rfl

/-- Counterexample to C10 as stated: an input dataset holding two rows at
one key loses the later one as soon as any merge runs. -/
theorem update_preserves_rows_counterexample :
    update_weather_db envInc [cityX] (some [pOld, pNew]) = Except.ok [pOld] ∧
      pNew ∈ [pOld, pNew] ∧ pNew ∉ [pOld] :=
  ⟨rfl, by decide, by decide⟩
